import Mathlib

/-!
Verification of the breakout backtesting program (`backtest.py`).

The program has two relevant functions:

* `apply_strategy`: computes, for every bar after the first, the previous
  bar's high/low and a breakout signal (1 = long, -1 = short, 0 = flat),
  after checking that the `High`, `Low`, `Close` columns are present.
* `backtest`: iterates over the resulting rows with `for i in range(1, len(data))`,
  opening a trade on each non-flat signal (entry at the row's close, stop
  at the previous bar's low/high, 1:1 take profit) and then checking every
  open trade — including the one just opened — against the row's high/low,
  settling stop-loss before take-profit, removing closed trades and adding
  each result to the balance.

Prices are modelled as exact rationals, dates as naturals.
-/

namespace Backtesting

/-- One raw bar of market data: the `Date`, `Open`, `High`, `Low`, `Close`
columns of the input frame. -/
structure Bar where
  Date : ℕ
  Open : ℚ
  High : ℚ
  Low : ℚ
  Close : ℚ
deriving DecidableEq, Repr

/-- One row of the frame produced by `apply_strategy`: the bar's own data
plus the shifted `Prev_High`/`Prev_Low` columns and the `Signal` column
(1 long, -1 short, 0 flat). -/
structure Row where
  Date : ℕ
  High : ℚ
  Low : ℚ
  Close : ℚ
  Prev_High : ℚ
  Prev_Low : ℚ
  Signal : ℤ
deriving DecidableEq, Repr

/-- The row `apply_strategy` builds from a bar `cur` and its predecessor
`prev`.  The signal column is written in two passes in the source
(`Signal = 1` where `Close > Prev_High`, then `Signal = -1` where
`Close < Prev_Low`), so the short assignment overwrites the long one. -/
def mkRow (prev cur : Bar) : Row :=
  { Date := cur.Date
    High := cur.High
    Low := cur.Low
    Close := cur.Close
    Prev_High := prev.High
    Prev_Low := prev.Low
    Signal := if cur.Close < prev.Low then -1
              else if cur.Close > prev.High then 1 else 0 }

/-- The row computation of `apply_strategy`: shift the high/low columns by
one bar, drop the first bar (whose shifted values are NaN), and compute the
signal column. -/
def apply_strategy : List Bar → List Row
  | [] => []
  | [_] => []
  | a :: b :: rest => mkRow a b :: apply_strategy (b :: rest)

/-- A data frame as `apply_strategy` receives it: the column names present,
and the bar data. -/
structure DataFrame where
  columns : List String
  bars : List Bar

/-- `apply_strategy` including its column check: it raises `ValueError` when
`{High, Low, Close}` is not a subset of the columns, otherwise it returns
the computed rows. -/
def apply_strategy_checked (df : DataFrame) : Except String (List Row) :=
  if ["High", "Low", "Close"].all (fun c => df.columns.contains c) then
    Except.ok (apply_strategy df.bars)
  else
    Except.error "Data must contain columns: High, Low, Close"

/-- An open trade, as the dictionaries appended to `open_trades`:
`direction` (1 long, -1 short), `entry_price`, `stop_loss`, `take_profit`,
`entry_date`.  The engine never mutates these fields after creation. -/
structure Trade where
  direction : ℤ
  entry_price : ℚ
  stop_loss : ℚ
  take_profit : ℚ
  entry_date : ℕ
deriving DecidableEq, Repr

/-- A record appended to `closed_trades`: the trade's fields plus
`exit_date`, `exit_price` and the signed `result`. -/
structure ClosedTrade where
  trade : Trade
  exit_date : ℕ
  exit_price : ℚ
  result : ℚ
deriving DecidableEq, Repr

/-- The trades opened by the signal branch of the loop body: a long trade
on signal 1 (stop at `Prev_Low`, 1:1 take profit above), a short trade on
signal -1 (stop at `Prev_High`, 1:1 take profit below), nothing on 0. -/
def new_trades (r : Row) : List Trade :=
  if r.Signal = 1 then
    [{ direction := 1
       entry_price := r.Close
       stop_loss := r.Prev_Low
       take_profit := r.Close + (r.Close - r.Prev_Low)
       entry_date := r.Date }]
  else if r.Signal = -1 then
    [{ direction := -1
       entry_price := r.Close
       stop_loss := r.Prev_High
       take_profit := r.Close - (r.Prev_High - r.Close)
       entry_date := r.Date }]
  else []

/-- The exit check the loop body applies to one open trade against the
current bar's high/low: `some (exit_price, result)` when the trade closes,
`none` when it stays open.  For a long trade the stop-loss test `low ≤ stop`
runs before the take-profit test `high ≥ tp`; for a short trade
`high ≥ stop` runs before `low ≤ tp`. -/
def trade_exit (t : Trade) (high low : ℚ) : Option (ℚ × ℚ) :=
  if t.direction = 1 then
    if low ≤ t.stop_loss then some (t.stop_loss, t.stop_loss - t.entry_price)
    else if high ≥ t.take_profit then
      some (t.take_profit, t.take_profit - t.entry_price)
    else none
  else if t.direction = -1 then
    if high ≥ t.stop_loss then some (t.stop_loss, t.entry_price - t.stop_loss)
    else if low ≤ t.take_profit then
      some (t.take_profit, t.entry_price - t.take_profit)
    else none
  else none

/-- The engine state threaded through the loop: `balance`, the list
`open_trades` in creation order, and the list `closed_trades` in closing
order. -/
structure EngineState where
  balance : ℚ
  open_trades : List Trade
  closed_trades : List ClosedTrade
deriving DecidableEq, Repr

/-- One iteration of the loop body of `backtest` on row `r`: first append
the trades the signal opens, then check every open trade — including the
ones just appended — against the row's high/low; each closed trade's result
is added to the balance and the trade is recorded in `closed_trades`;
finally the closed trades are deleted from `open_trades` (deleting by index
from last to first keeps exactly the unclosed trades, in order). -/
def step (st : EngineState) (r : Row) : EngineState :=
  let opens := st.open_trades ++ new_trades r
  let newly_closed := opens.filterMap (fun t =>
    match trade_exit t r.High r.Low with
    | some (ep, res) =>
        some { trade := t, exit_date := r.Date, exit_price := ep, result := res }
    | none => none)
  { balance := st.balance + (newly_closed.map (fun c => c.result)).sum
    open_trades := opens.filter (fun t => (trade_exit t r.High r.Low).isNone)
    closed_trades := st.closed_trades ++ newly_closed }

/-- The full state after `backtest` runs on `rows`: the loop
`for i in range(1, len(data))` folds `step` over every row except the
first, starting from the given balance with no trades. -/
def backtest_state (rows : List Row) (initial_balance : ℚ) : EngineState :=
  (rows.drop 1).foldl step
    { balance := initial_balance, open_trades := [], closed_trades := [] }

/-- The value `backtest` returns: the final balance. -/
def backtest (rows : List Row) (initial_balance : ℚ) : ℚ :=
  (backtest_state rows initial_balance).balance

/-- Every trade the engine has created so far: the closed ones (stripped of
their exit data) together with the still-open ones. -/
def all_trades (st : EngineState) : List Trade :=
  st.closed_trades.map (fun c => c.trade) ++ st.open_trades

/-! Concrete inputs used to exhibit counterexamples and to instantiate the
theorems below.  All bars in these lists are well-formed
(high ≥ max(open, close), low ≤ min(open, close)) unless noted. -/

/-- Three well-formed bars.  The last one closes at 100, above the previous
high 98 (a long signal), while its own low 94 is already at or below the
previous low 95 (the stop level). -/
def c1_bars : List Bar :=
  [{ Date := 0, Open := 96, High := 97, Low := 95, Close := 96 },
   { Date := 1, Open := 96, High := 98, Low := 95, Close := 96 },
   { Date := 2, Open := 95, High := 101, Low := 94, Close := 100 }]

/-- The trade record the run on `c1_bars` closes: stopped out on the very
bar that opened it. -/
def c1_closed : ClosedTrade :=
  { trade := { direction := 1, entry_price := 100, stop_loss := 95,
               take_profit := 105, entry_date := 2 },
    exit_date := 2, exit_price := 95, result := -5 }

/-- Two well-formed bars whose second closes at 100, above the first bar's
high 97: a long signal on the first (and only) row with a defined signal. -/
def c2_bars : List Bar :=
  [{ Date := 0, Open := 96, High := 97, Low := 95, Close := 96 },
   { Date := 1, Open := 97, High := 101, Low := 96, Close := 100 }]

/-- Two rows whose second carries a long signal. -/
def c2_rows : List Row :=
  [{ Date := 1, High := 98, Low := 95, Close := 96, Prev_High := 97,
     Prev_Low := 95, Signal := 0 },
   { Date := 2, High := 101, Low := 96, Close := 100, Prev_High := 98,
     Prev_Low := 95, Signal := 1 }]

/-- A long trade with stop 95 and take profit 105. -/
def c3_trade : Trade :=
  { direction := 1, entry_price := 100, stop_loss := 95, take_profit := 105,
    entry_date := 1 }

/-- A state holding the single open trade `c3_trade`. -/
def c3_state : EngineState :=
  { balance := 10000, open_trades := [c3_trade], closed_trades := [] }

/-- A row whose low 94 hits `c3_trade`'s stop 95 and whose high 106 also
reaches its take profit 105. -/
def c3_row : Row :=
  { Date := 2, High := 106, Low := 94, Close := 100, Prev_High := 99,
    Prev_Low := 96, Signal := 0 }

/-- Two rows whose second opens a long trade (entry 97, stop 95, take
profit 99) that neither exit touches on its own bar. -/
def c5_rows : List Row :=
  [{ Date := 1, High := 98, Low := 95, Close := 96, Prev_High := 97,
     Prev_Low := 95, Signal := 0 },
   { Date := 2, High := 98, Low := 96, Close := 97, Prev_High := 98,
     Prev_Low := 95, Signal := 1 }]

/-- The trade the run on `c5_rows` leaves open. -/
def c5_trade : Trade :=
  { direction := 1, entry_price := 97, stop_loss := 95, take_profit := 99,
    entry_date := 2 }

/-- Three well-formed bars whose last closes at 100, above the previous
high 98, opening a long trade that stays open. -/
def c6_bars : List Bar :=
  [{ Date := 0, Open := 96, High := 97, Low := 95, Close := 96 },
   { Date := 1, Open := 96, High := 98, Low := 95, Close := 96 },
   { Date := 2, Open := 99, High := 102, Low := 98, Close := 100 }]

/-- The trade the run on `c6_bars` leaves open. -/
def c6_trade : Trade :=
  { direction := 1, entry_price := 100, stop_loss := 95, take_profit := 105,
    entry_date := 2 }

/-- A malformed first bar (low 110 above high 90): its successor's close
100 is both above the previous high and below the previous low. -/
def c7_bars : List Bar :=
  [{ Date := 0, Open := 100, High := 90, Low := 110, Close := 100 },
   { Date := 1, Open := 100, High := 100, Low := 100, Close := 100 }]

/-- Two well-formed bars whose second closes above the first one's high. -/
def c7w_bars : List Bar :=
  [{ Date := 0, Open := 96, High := 98, Low := 95, Close := 96 },
   { Date := 1, Open := 99, High := 101, Low := 98, Close := 100 }]

/-- Two rows, both flat. -/
def c8_rows : List Row :=
  [{ Date := 1, High := 99, Low := 90, Close := 95, Prev_High := 98,
     Prev_Low := 91, Signal := 0 },
   { Date := 2, High := 100, Low := 91, Close := 96, Prev_High := 99,
     Prev_Low := 90, Signal := 0 }]

/-- A long trade with stop 95 and take profit 105. -/
def c9_trade : Trade :=
  { direction := 1, entry_price := 100, stop_loss := 95, take_profit := 105,
    entry_date := 1 }

/-- A state holding the single open trade `c9_trade`. -/
def c9_state : EngineState :=
  { balance := 10000, open_trades := [c9_trade], closed_trades := [] }

/-- A row that touches neither exit level of `c9_trade` but carries a short
signal, so a new trade opens while `c9_trade` stays. -/
def c9_row : Row :=
  { Date := 2, High := 102, Low := 98, Close := 99, Prev_High := 101,
    Prev_Low := 98, Signal := -1 }

/-- Characterisation of the trades the signal branch opens on a row. -/
lemma new_trades_spec (r : Row) (t : Trade) (h : t ∈ new_trades r) :
    t.entry_price = r.Close ∧ t.entry_date = r.Date ∧
      ((r.Signal = 1 ∧ t.direction = 1 ∧ t.stop_loss = r.Prev_Low ∧
          t.take_profit = r.Close + (r.Close - r.Prev_Low)) ∨
        (r.Signal = -1 ∧ t.direction = -1 ∧ t.stop_loss = r.Prev_High ∧
          t.take_profit = r.Close - (r.Prev_High - r.Close))) := by
  unfold new_trades at h
  split_ifs at h with h1 h2
  · rcases List.mem_singleton.1 h with rfl
    exact ⟨rfl, rfl, Or.inl ⟨h1, rfl, rfl, rfl⟩⟩
  · rcases List.mem_singleton.1 h with rfl
    exact ⟨rfl, rfl, Or.inr ⟨h2, rfl, rfl, rfl⟩⟩
  · simp at h

/-- The trades known to the engine after one loop iteration are exactly the
trades known before it together with the trades the row's signal opened. -/
lemma mem_all_trades_step (st : EngineState) (r : Row) (t : Trade) :
    t ∈ all_trades (step st r) ↔ t ∈ all_trades st ∨ t ∈ new_trades r := by
  unfold all_trades step
  simp only [List.map_append, List.mem_append, List.mem_map, List.mem_filter,
    List.mem_filterMap]
  constructor
  · rintro ((⟨c, hc, rfl⟩ | ⟨c, ⟨u, hu, hmatch⟩, rfl⟩) | ⟨hmem, _⟩)
    · exact Or.inl (Or.inl ⟨c, hc, rfl⟩)
    · rcases hE : trade_exit u r.High r.Low with _ | ⟨ep, res⟩ <;>
        rw [hE] at hmatch <;> simp only [Option.some.injEq] at hmatch
      · exact absurd hmatch (by simp)
      · rcases hmatch with rfl
        exact hu.imp (fun h => Or.inr h) id
    · exact hmem.imp (fun h => Or.inr h) id
  · rintro (h | h)
    · rcases h with ⟨c, hc, rfl⟩ | hopen
      · exact Or.inl (Or.inl ⟨c, hc, rfl⟩)
      · rcases hE : trade_exit t r.High r.Low with _ | ⟨ep, res⟩
        · exact Or.inr ⟨Or.inl hopen, by simp [hE]⟩
        · refine Or.inl (Or.inr ⟨⟨t, r.Date, ep, res⟩, ⟨t, Or.inl hopen, ?_⟩, rfl⟩)
          rw [hE]
    · rcases hE : trade_exit t r.High r.Low with _ | ⟨ep, res⟩
      · exact Or.inr ⟨Or.inr h, by simp [hE]⟩
      · refine Or.inl (Or.inr ⟨⟨t, r.Date, ep, res⟩, ⟨t, Or.inr h, ?_⟩, rfl⟩)
        rw [hE]

/-- Every trade known after folding the loop over a list of rows was either
known before, or was opened by the signal of one of those rows. -/
lemma all_trades_foldl_subset (l : List Row) (st : EngineState) (t : Trade)
    (h : t ∈ all_trades (l.foldl step st)) :
    t ∈ all_trades st ∨ ∃ r ∈ l, t ∈ new_trades r := by
  induction l generalizing st with
  | nil => exact Or.inl h
  | cons r l ih =>
    rcases ih (step st r) h with h1 | ⟨u, hu, ht⟩
    · rcases (mem_all_trades_step st r t).1 h1 with h2 | h2
      · exact Or.inl h2
      · exact Or.inr ⟨r, List.mem_cons_self r l, h2⟩
    · exact Or.inr ⟨u, List.mem_cons_of_mem r hu, ht⟩

/-- The engine never forgets a trade: folding the loop over more rows keeps
every trade known before (open trades may move to the closed list, but
their stored fields survive unchanged). -/
lemma all_trades_foldl_mono (l : List Row) (st : EngineState) (t : Trade)
    (h : t ∈ all_trades st) : t ∈ all_trades (l.foldl step st) := by
  induction l generalizing st with
  | nil => exact h
  | cons r l ih => exact ih (step st r) ((mem_all_trades_step st r t).2 (Or.inl h))

/-- Every trade the whole run creates was opened by the signal of one of the
processed rows (every row but the first). -/
lemma all_trades_backtest (rows : List Row) (initial_balance : ℚ) (t : Trade)
    (h : t ∈ all_trades (backtest_state rows initial_balance)) :
    ∃ r ∈ rows.drop 1, t ∈ new_trades r := by
  rcases all_trades_foldl_subset (rows.drop 1) _ t h with h1 | h1
  · simp [all_trades] at h1
  · exact h1

/-- Every row `apply_strategy` produces is built by `mkRow` from two bars of
the input (the row's own bar and its predecessor). -/
lemma apply_strategy_mem : ∀ (bars : List Bar) (r : Row),
    r ∈ apply_strategy bars → ∃ p c, p ∈ bars ∧ c ∈ bars ∧ r = mkRow p c
  | [], r, h => by simp [apply_strategy] at h
  | [_], r, h => by simp [apply_strategy] at h
  | a :: b :: rest, r, h => by
    simp only [apply_strategy, List.mem_cons] at h
    rcases h with rfl | h2
    · exact ⟨a, b, List.mem_cons_self a _,
        List.mem_cons_of_mem a (List.mem_cons_self b rest), rfl⟩
    · rcases apply_strategy_mem (b :: rest) r h2 with ⟨p, c, hp, hc, he⟩
      exact ⟨p, c, List.mem_cons_of_mem a hp, List.mem_cons_of_mem a hc, he⟩

/-- `apply_strategy` drops exactly the first bar. -/
lemma apply_strategy_length : ∀ bars : List Bar,
    (apply_strategy bars).length = bars.length - 1
  | [] => rfl
  | [_] => rfl
  | _ :: b :: rest => by
    simp only [apply_strategy, List.length_cons,
      apply_strategy_length (b :: rest)]
    omega

/-- The row at index `i` of `apply_strategy`'s output is built from the bars
at indices `i` and `i + 1` of the input. -/
lemma apply_strategy_get : ∀ (bars : List Bar) (i : ℕ) (h1 : i + 1 < bars.length)
    (h2 : i < (apply_strategy bars).length),
    (apply_strategy bars).get ⟨i, h2⟩ =
      mkRow (bars.get ⟨i, Nat.lt_of_succ_lt h1⟩) (bars.get ⟨i + 1, h1⟩)
  | [], _, h1, _ => by simp at h1
  | [_], _, h1, _ => by simp at h1
  | a :: b :: rest, 0, h1, h2 => rfl
  | a :: b :: rest, i + 1, h1, h2 => by
    have h1' : i + 1 < (b :: rest).length := by
      simpa [Nat.succ_lt_succ_iff] using h1
    have h2' : i < (apply_strategy (b :: rest)).length := by
      simpa [apply_strategy] using h2
    simpa [apply_strategy] using apply_strategy_get (b :: rest) i h1' h2'

/-- The loop body preserves the quantity balance minus the sum of recorded
results: each closed trade's result enters the balance exactly when its
record enters `closed_trades`. -/
lemma step_balance (st : EngineState) (r : Row) :
    (step st r).balance -
        ((step st r).closed_trades.map (fun c => c.result)).sum =
      st.balance - (st.closed_trades.map (fun c => c.result)).sum := by
  simp only [step, List.map_append, List.sum_append]
  ring

/-- Balance minus the sum of recorded results is invariant across the whole
loop. -/
lemma foldl_balance (l : List Row) (st : EngineState) :
    (l.foldl step st).balance -
        (((l.foldl step st).closed_trades.map (fun c => c.result)).sum) =
      st.balance - (st.closed_trades.map (fun c => c.result)).sum := by
  induction l generalizing st with
  | nil => rfl
  | cons r l ih => rw [List.foldl_cons, ih (step st r), step_balance]

/-- A flat row opens nothing. -/
lemma new_trades_flat (r : Row) (h : r.Signal = 0) : new_trades r = [] := by
  simp [new_trades, h]

/-- With no open trades and a flat row, the loop body changes nothing but
reproduces the state. -/
lemma step_flat (st : EngineState) (r : Row) (hopen : st.open_trades = [])
    (h : r.Signal = 0) : step st r = st := by
  obtain ⟨bal, ops, cls⟩ := st
  obtain rfl : ops = [] := hopen
  simp [step, new_trades_flat r h]

/-- With no open trades and only flat rows the loop is the identity. -/
lemma foldl_flat (l : List Row) (st : EngineState)
    (hopen : st.open_trades = []) (h : ∀ r ∈ l, r.Signal = 0) :
    l.foldl step st = st := by
  induction l with
  | nil => rfl
  | cons r l ih =>
    rw [List.foldl_cons, step_flat st r hopen (h r (List.mem_cons_self r l))]
    exact ih (fun u hu => h u (List.mem_cons_of_mem r hu))

/-- Date invariant of the loop: if the rows still to process carry dates no
earlier than anything already open, every trade record ever closed exits on
its entry date or later. -/
lemma foldl_dates : ∀ (l : List Row) (st : EngineState),
    List.Pairwise (fun a b : Row => a.Date ≤ b.Date) l →
    (∀ c ∈ st.closed_trades, c.trade.entry_date ≤ c.exit_date) →
    (∀ t ∈ st.open_trades, ∀ r ∈ l, t.entry_date ≤ r.Date) →
    ∀ c ∈ (l.foldl step st).closed_trades, c.trade.entry_date ≤ c.exit_date := by
  intro l
  induction l with
  | nil => intro st _ hclosed _; exact hclosed
  | cons r l ih =>
    intro st hpair hclosed hopen
    rw [List.foldl_cons]
    rcases List.pairwise_cons.1 hpair with ⟨hr, hl⟩
    refine ih (step st r) hl ?_ ?_
    · intro c hc
      simp only [step, List.mem_append, List.mem_filterMap] at hc
      rcases hc with hc | ⟨u, hu, hmatch⟩
      · exact hclosed c hc
      · rcases hE : trade_exit u r.High r.Low with _ | ⟨ep, res⟩ <;>
          rw [hE] at hmatch
        · simp at hmatch
        · simp only [Option.some.injEq] at hmatch
          subst hmatch
          rcases hu with h | h
          · exact hopen u h r (List.mem_cons_self r l)
          · exact le_of_eq (new_trades_spec r u h).2.1
    · intro t ht r' hr'
      simp only [step, List.mem_filter, List.mem_append] at ht
      rcases ht.1 with h | h
      · exact hopen t h r' (List.mem_cons_of_mem r hr')
      · rw [(new_trades_spec r t h).2.1]
        exact hr r' hr'

/-- C1 counterexample: on the run over `c1_bars` the engine creates a
position on the bar with date 2 and resolves it on that same bar (the
closed record's entry date equals its exit date), because the loop body
appends new trades to `open_trades` before the exit scan of the same bar.
The claim that only strictly later bars may close a position is false. -/
theorem c1_counterexample :
    ((backtest_state (apply_strategy c1_bars) 10000).closed_trades.map
        (fun c => (c.trade.entry_date, c.exit_date))) = [(2, 2)] ∧
      backtest (apply_strategy c1_bars) 10000 = 9995 := by
  constructor <;>
    norm_num [c1_bars, apply_strategy, mkRow, backtest, backtest_state, step,
      new_trades, trade_exit, List.filterMap_cons, List.filterMap_nil]

/-- C1 amended: a position created on bar i may be resolved on bar i
itself; what does hold is that no position is resolved on an earlier bar:
when the rows carry nondecreasing dates, every closed trade's exit date is
at least its entry date. -/
theorem c1_exit_not_before_entry (rows : List Row) (initial_balance : ℚ)
    (hdates : List.Pairwise (fun a b : Row => a.Date ≤ b.Date) rows)
    (c : ClosedTrade)
    (hc : c ∈ (backtest_state rows initial_balance).closed_trades) :
    c.trade.entry_date ≤ c.exit_date := by
  refine foldl_dates (rows.drop 1) _
    (List.Pairwise.sublist (List.drop_sublist 1 rows) hdates) ?_ ?_ c hc
  · intro c hc; simp at hc
  · intro t ht; simp at ht

/-- Witness for the amended C1 at the concrete run on `c1_bars`. -/
theorem c1_exit_not_before_entry_witness :
    c1_closed.trade.entry_date ≤ c1_closed.exit_date :=
  c1_exit_not_before_entry (apply_strategy c1_bars) 10000 (by decide) c1_closed
    (by norm_num [c1_bars, c1_closed, apply_strategy, mkRow, backtest_state,
      step, new_trades, trade_exit, List.filterMap_cons, List.filterMap_nil])

/-- C2 counterexample: `apply_strategy c2_bars` produces exactly one row,
and it carries a long signal; yet the run creates no trade at all, because
`backtest` iterates `for i in range(1, len(data))` and so skips the first
row of its input — the first bar with a defined signal. -/
theorem c2_counterexample :
    ((apply_strategy c2_bars).map (fun r => r.Signal)) = [1] ∧
      all_trades (backtest_state (apply_strategy c2_bars) 10000) = [] := by
  constructor <;> decide

/-- C2 amended: the engine processes its input only from the second row on;
every row after the first that carries a non-flat signal opens a position
with that row's close as entry price on that row's date. -/
theorem c2_signal_opens_position (rows : List Row) (initial_balance : ℚ)
    (r : Row) (hr : r ∈ rows.drop 1) (hs : r.Signal = 1 ∨ r.Signal = -1) :
    ∃ t ∈ all_trades (backtest_state rows initial_balance),
      t.entry_price = r.Close ∧ t.entry_date = r.Date := by
  obtain ⟨pre, post, heq⟩ := List.append_of_mem hr
  have hnew : ∃ t ∈ new_trades r,
      t.entry_price = r.Close ∧ t.entry_date = r.Date := by
    rcases hs with hs | hs
    · exact ⟨⟨1, r.Close, r.Prev_Low, r.Close + (r.Close - r.Prev_Low), r.Date⟩,
        by simp [new_trades, hs], rfl, rfl⟩
    · exact ⟨⟨-1, r.Close, r.Prev_High, r.Close - (r.Prev_High - r.Close), r.Date⟩,
        by simp [new_trades, hs], rfl, rfl⟩
  obtain ⟨t, htn, hte, htd⟩ := hnew
  refine ⟨t, ?_, hte, htd⟩
  unfold backtest_state
  rw [heq, List.foldl_append, List.foldl_cons]
  exact all_trades_foldl_mono post _ t ((mem_all_trades_step _ r t).2 (Or.inr htn))

/-- Witness for the amended C2 at the concrete run on `c2_rows`. -/
theorem c2_signal_opens_position_witness :
    ∃ t ∈ all_trades (backtest_state c2_rows 10000),
      t.entry_price = (c2_rows.get ⟨1, by decide⟩).Close ∧
        t.entry_date = (c2_rows.get ⟨1, by decide⟩).Date :=
  c2_signal_opens_position c2_rows 10000 (c2_rows.get ⟨1, by decide⟩)
    (by decide) (Or.inl (by decide))

/-- C3 confirmed: a trade in the open set for which the bar satisfies both
the stop-loss and the take-profit condition is closed by the loop body at
the stop-loss price, settling the loss, because the stop-loss branch of the
if/elif runs first for both directions. -/
theorem c3_stop_loss_priority (st : EngineState) (r : Row) (t : Trade)
    (hmem : t ∈ st.open_trades ++ new_trades r)
    (hboth : (t.direction = 1 ∧ r.Low ≤ t.stop_loss ∧ r.High ≥ t.take_profit) ∨
      (t.direction = -1 ∧ r.High ≥ t.stop_loss ∧ r.Low ≤ t.take_profit)) :
    ∃ c ∈ (step st r).closed_trades, c.trade = t ∧
      c.exit_price = t.stop_loss ∧
      c.result = (if t.direction = 1 then t.stop_loss - t.entry_price
                  else t.entry_price - t.stop_loss) := by
  have hexit : trade_exit t r.High r.Low =
      some (t.stop_loss,
        if t.direction = 1 then t.stop_loss - t.entry_price
        else t.entry_price - t.stop_loss) := by
    rcases hboth with ⟨hd, h1, _⟩ | ⟨hd, h1, _⟩
    · simp [trade_exit, hd, h1]
    · have hne : t.direction ≠ 1 := by rw [hd]; decide
      simp [trade_exit, hd, hne, h1]
  refine ⟨⟨t, r.Date, t.stop_loss, _⟩, ?_, rfl, rfl, rfl⟩
  simp only [step, List.mem_append, List.mem_filterMap]
  exact Or.inr ⟨t, List.mem_append.1 hmem, by rw [hexit]; rfl⟩

/-- Witness for C3 at `c3_state`/`c3_row`, where low 94 ≤ stop 95 and
high 106 ≥ take profit 105 hold simultaneously. -/
theorem c3_stop_loss_priority_witness :
    ∃ c ∈ (step c3_state c3_row).closed_trades, c.trade = c3_trade ∧
      c.exit_price = c3_trade.stop_loss ∧
      c.result = (if c3_trade.direction = 1
        then c3_trade.stop_loss - c3_trade.entry_price
        else c3_trade.entry_price - c3_trade.stop_loss) :=
  c3_stop_loss_priority c3_state c3_row c3_trade (by decide)
    (Or.inl ⟨by decide, by decide, by decide⟩)

/-- C4 confirmed: the final balance is exactly the initial balance plus the
sum of the signed results recorded for the trades closed during the run;
trades still open at the end contribute nothing. -/
theorem c4_final_balance (rows : List Row) (initial_balance : ℚ) :
    backtest rows initial_balance = initial_balance +
      (((backtest_state rows initial_balance).closed_trades.map
          (fun c => c.result)).sum) := by
  have h := foldl_balance (rows.drop 1)
    { balance := initial_balance, open_trades := [], closed_trades := [] }
  simp only [backtest, backtest_state, List.map_nil, List.sum_nil] at h ⊢
  linarith

/-- C5 confirmed: every trade the run ever creates has its take profit
exactly as far from the entry as the stop loss, on both sides: the source
sets take_profit = entry ± risk with risk the entry/stop distance. -/
theorem c5_risk_reward (rows : List Row) (initial_balance : ℚ) (t : Trade)
    (ht : t ∈ all_trades (backtest_state rows initial_balance)) :
    |t.take_profit - t.entry_price| = |t.entry_price - t.stop_loss| := by
  rcases all_trades_backtest rows initial_balance t ht with ⟨r, _, hnew⟩
  rcases new_trades_spec r t hnew with ⟨he, _, hcase⟩
  have heq : t.take_profit - t.entry_price = t.entry_price - t.stop_loss := by
    rcases hcase with ⟨_, _, hs, htp⟩ | ⟨_, _, hs, htp⟩ <;>
      rw [htp, hs, he] <;> ring
  rw [heq]

/-- Witness for C5 at the trade the run on `c5_rows` creates. -/
theorem c5_risk_reward_witness :
    |c5_trade.take_profit - c5_trade.entry_price| =
      |c5_trade.entry_price - c5_trade.stop_loss| :=
  c5_risk_reward c5_rows 10000 c5_trade
    (by norm_num [c5_rows, c5_trade, backtest_state, step, new_trades,
      trade_exit, all_trades, List.filterMap_cons, List.filterMap_nil])

/-- C6 confirmed: when every input bar is well-formed, every trade the
pipeline (signal computation then backtest) creates has its levels ordered:
stop below entry below take profit for a long, the reverse for a short. -/
theorem c6_level_ordering (bars : List Bar) (initial_balance : ℚ)
    (hwf : ∀ b ∈ bars, max b.Open b.Close ≤ b.High ∧ b.Low ≤ min b.Open b.Close)
    (t : Trade)
    (ht : t ∈ all_trades (backtest_state (apply_strategy bars) initial_balance)) :
    (t.direction = 1 → t.stop_loss < t.entry_price ∧
        t.entry_price < t.take_profit) ∧
    (t.direction = -1 → t.take_profit < t.entry_price ∧
        t.entry_price < t.stop_loss) := by
  rcases all_trades_backtest _ _ t ht with ⟨r, hr, hnew⟩
  have hr' : r ∈ apply_strategy bars := (List.drop_sublist 1 _).subset hr
  rcases apply_strategy_mem bars r hr' with ⟨p, c, hp, _, rfl⟩
  have hple : p.Low ≤ p.High := by
    rcases hwf p hp with ⟨h1, h2⟩
    have h3 := le_max_left p.Open p.Close
    have h4 := min_le_left p.Open p.Close
    linarith
  rcases new_trades_spec _ t hnew with ⟨he, _, hcase⟩
  rcases hcase with ⟨hsig, hd, hs, htp⟩ | ⟨hsig, hd, hs, htp⟩
  · have hgt : p.High < c.Close := by
      simp only [mkRow] at hsig
      split_ifs at hsig with h1 h2
      · exact h2
      · exact absurd hsig (by decide)
    simp only [mkRow] at he hs htp
    constructor
    · intro _
      constructor
      · rw [hs, he]; linarith
      · rw [htp, he]; linarith
    · intro hd'; rw [hd] at hd'; exact absurd hd' (by decide)
  · have hlt : c.Close < p.Low := by
      simp only [mkRow] at hsig
      split_ifs at hsig with h1 h2
      exact h1
    simp only [mkRow] at he hs htp
    constructor
    · intro hd'; rw [hd] at hd'; exact absurd hd' (by decide)
    · intro _
      constructor
      · rw [htp, he]; linarith
      · rw [hs, he]; linarith

/-- Witness for C6 at the run on the well-formed bars `c6_bars`. -/
theorem c6_level_ordering_witness :
    (c6_trade.direction = 1 → c6_trade.stop_loss < c6_trade.entry_price ∧
        c6_trade.entry_price < c6_trade.take_profit) ∧
    (c6_trade.direction = -1 → c6_trade.take_profit < c6_trade.entry_price ∧
        c6_trade.entry_price < c6_trade.stop_loss) :=
  c6_level_ordering c6_bars 10000 (by decide) c6_trade
    (by norm_num [c6_bars, c6_trade, apply_strategy, mkRow, backtest_state,
      step, new_trades, trade_exit, all_trades, List.filterMap_cons,
      List.filterMap_nil])

/-- C7 counterexample: with a malformed previous bar (low 110 above
high 90) the successor closes above the previous high, yet the signal is
-1, not 1: the short assignment `Close < Prev_Low` overwrites the long
one, so "Long exactly when close > previous high" fails. -/
theorem c7_counterexample :
    ((apply_strategy c7_bars).map (fun r => r.Signal)) = [-1] ∧
      (c7_bars.get ⟨0, by decide⟩).High < (c7_bars.get ⟨1, by decide⟩).Close :=
  ⟨by decide, by decide⟩

/-- C7 amended: for every bar with a predecessor whose low does not exceed
its high, the signal is 1 exactly when the close is strictly above the
previous high, -1 exactly when it is strictly below the previous low, and
0 otherwise; equality with either level yields 0. -/
theorem c7_breakout_signal (bars : List Bar) (i : ℕ) (h1 : i + 1 < bars.length)
    (h2 : i < (apply_strategy bars).length)
    (hwf : (bars.get ⟨i, Nat.lt_of_succ_lt h1⟩).Low ≤
      (bars.get ⟨i, Nat.lt_of_succ_lt h1⟩).High) :
    (((apply_strategy bars).get ⟨i, h2⟩).Signal = 1 ↔
        (bars.get ⟨i, Nat.lt_of_succ_lt h1⟩).High <
          (bars.get ⟨i + 1, h1⟩).Close) ∧
    (((apply_strategy bars).get ⟨i, h2⟩).Signal = -1 ↔
        (bars.get ⟨i + 1, h1⟩).Close <
          (bars.get ⟨i, Nat.lt_of_succ_lt h1⟩).Low) ∧
    (((apply_strategy bars).get ⟨i, h2⟩).Signal = 0 ↔
        ¬ (bars.get ⟨i, Nat.lt_of_succ_lt h1⟩).High <
            (bars.get ⟨i + 1, h1⟩).Close ∧
          ¬ (bars.get ⟨i + 1, h1⟩).Close <
            (bars.get ⟨i, Nat.lt_of_succ_lt h1⟩).Low) := by
  rw [apply_strategy_get bars i h1 h2]
  simp only [mkRow]
  split_ifs with ha hb
  · exact ⟨⟨fun h => absurd h (by decide), fun h => absurd h (by linarith)⟩,
      ⟨fun _ => ha, fun _ => rfl⟩,
      ⟨fun h => absurd h (by decide), fun h => absurd ha h.2⟩⟩
  · exact ⟨⟨fun _ => hb, fun _ => rfl⟩,
      ⟨fun h => absurd h (by decide), fun h => absurd h ha⟩,
      ⟨fun h => absurd h (by decide), fun h => absurd hb h.1⟩⟩
  · exact ⟨⟨fun h => absurd h (by decide), fun h => absurd h hb⟩,
      ⟨fun h => absurd h (by decide), fun h => absurd h ha⟩,
      ⟨fun _ => ⟨hb, ha⟩, fun _ => rfl⟩⟩

/-- Witness for the amended C7 at the well-formed bars `c7w_bars`. -/
theorem c7_breakout_signal_witness :
    (((apply_strategy c7w_bars).get ⟨0, by decide⟩).Signal = 1 ↔
        (c7w_bars.get ⟨0, by decide⟩).High <
          (c7w_bars.get ⟨1, by decide⟩).Close) ∧
    (((apply_strategy c7w_bars).get ⟨0, by decide⟩).Signal = -1 ↔
        (c7w_bars.get ⟨1, by decide⟩).Close <
          (c7w_bars.get ⟨0, by decide⟩).Low) ∧
    (((apply_strategy c7w_bars).get ⟨0, by decide⟩).Signal = 0 ↔
        ¬ (c7w_bars.get ⟨0, by decide⟩).High <
            (c7w_bars.get ⟨1, by decide⟩).Close ∧
          ¬ (c7w_bars.get ⟨1, by decide⟩).Close <
            (c7w_bars.get ⟨0, by decide⟩).Low) :=
  c7_breakout_signal c7w_bars 0 (by decide) (by decide) (by decide)

/-- C8 confirmed: a run over rows that all carry the flat signal returns
exactly the starting balance. -/
theorem c8_balance_conservation (rows : List Row) (initial_balance : ℚ)
    (h : ∀ r ∈ rows, r.Signal = 0) :
    backtest rows initial_balance = initial_balance := by
  unfold backtest backtest_state
  rw [foldl_flat _ _ rfl
    (fun r hr => h r ((List.drop_sublist 1 rows).subset hr))]

/-- Witness for C8 at the all-flat rows `c8_rows`. -/
theorem c8_balance_conservation_witness : backtest c8_rows 10000 = 10000 :=
  c8_balance_conservation c8_rows 10000 (by decide)

/-- C9 confirmed: a trade in the open set that the bar's exit check does
not close survives the loop body as the identical record — opening a new
position on the same bar does not close or alter it, and closing other
positions only filters the list, never rewriting the survivors (the new
open set is a sublist of the old one plus the newly opened trades). -/
theorem c9_frame (st : EngineState) (r : Row) (t : Trade)
    (hmem : t ∈ st.open_trades) (hstay : trade_exit t r.High r.Low = none) :
    t ∈ (step st r).open_trades ∧
      List.Sublist (step st r).open_trades (st.open_trades ++ new_trades r) := by
  constructor
  · simp only [step, List.mem_filter, List.mem_append]
    exact ⟨Or.inl hmem, by simp [hstay]⟩
  · exact List.filter_sublist _

/-- Witness for C9 at `c9_state`/`c9_row`: the row opens a new short trade
while the old long trade `c9_trade` survives untouched. -/
theorem c9_frame_witness :
    c9_trade ∈ (step c9_state c9_row).open_trades ∧
      List.Sublist (step c9_state c9_row).open_trades
        (c9_state.open_trades ++ new_trades c9_row) :=
  c9_frame c9_state c9_row c9_trade (by decide) (by decide)

/-- C10 confirmed: the column check of `apply_strategy` raises exactly when
one of `High`, `Low`, `Close` is missing from the input's columns, and
returns normally whenever all three are present. -/
theorem c10_column_check (df : DataFrame) :
    (∃ e, apply_strategy_checked df = Except.error e) ↔
      ¬ ("High" ∈ df.columns ∧ "Low" ∈ df.columns ∧ "Close" ∈ df.columns) := by
  unfold apply_strategy_checked
  split_ifs with h
  · simp only [List.all_cons, List.all_nil, Bool.and_eq_true,
      List.contains_iff_exists_mem_beq] at h
    constructor
    · rintro ⟨e, he⟩; exact absurd he (by simp)
    · intro hcon
      refine absurd ?_ hcon
      obtain ⟨⟨a, ha, hae⟩, ⟨b, hb, hbe⟩, ⟨c, hc, hce⟩, _⟩ := h
      rw [beq_iff_eq] at hae hbe hce
      exact ⟨hae ▸ ha, hbe ▸ hb, hce ▸ hc⟩
  · constructor
    · intro _
      intro hcon
      rcases hcon with ⟨h1, h2, h3⟩
      refine h ?_
      simp only [List.all_cons, List.all_nil, Bool.and_eq_true,
        List.contains_iff_exists_mem_beq]
      exact ⟨⟨"High", h1, by simp⟩, ⟨"Low", h2, by simp⟩,
        ⟨"Close", h3, by simp⟩, trivial⟩
    · intro _
      exact ⟨"Data must contain columns: High, Low, Close", rfl⟩

end Backtesting
